import Mathlib

/-!
Shallow embedding of the connection-establishment layer of an HTTP client
(`src/client/connect.rs` and `src/client/dns.rs`): URI validation, the
literal-IP resolution fast path, the multi-address TCP connection fallback
loop, and the polling state machine that sequences them.

External collaborators (the OS socket calls, the reactor handle, the worker
pool, the system resolver) are modelled as an explicit environment `Env` of
oracles; futures are identified by natural-number handles whose poll
behaviour the environment determines.  Everything the repository's own code
does is translated directly from the source.
-/

/-- The three URI validation failures of `connect.rs` (`enum InvalidUrl`). -/
inductive InvalidUrl
  | MissingScheme
  | NotHttp
  | MissingAuthority
deriving DecidableEq, Repr

/-- The `std::io::ErrorKind` values this code distinguishes: `InvalidInput`
for URL validation failures, and an opaque numbered kind for errors produced
by the environment (socket setup, connect, resolution failures). -/
inductive ErrorKind
  | InvalidInput
  | Other (code : Nat)
deriving DecidableEq, Repr

/-- Model of `std::io::Error`: a kind plus, when the error was built by
`invalid_url` via `io::Error::new(InvalidInput, err)`, the boxed
`InvalidUrl` cause. -/
structure IoError where
  kind : ErrorKind
  cause : Option InvalidUrl
deriving DecidableEq, Repr

/-- Model of `std::net::Ipv4Addr`: four octets. -/
structure Ipv4Addr where
  a : Nat
  b : Nat
  c : Nat
  d : Nat
deriving DecidableEq, Repr

/-- Model of `std::net::Ipv6Addr`: the eight 16-bit segments. -/
structure Ipv6Addr where
  segments : List Nat
deriving DecidableEq, Repr

/-- Model of `std::net::IpAddr`. -/
inductive IpAddr
  | v4 (addr : Ipv4Addr)
  | v6 (addr : Ipv6Addr)
deriving DecidableEq, Repr

/-- `IpAddr::is_ipv4`. -/
def IpAddr.is_ipv4 : IpAddr → Bool
  | .v4 _ => true
  | .v6 _ => false

/-- Model of `std::net::SocketAddr` (`V4`: address and port; `V6`: address,
port, flowinfo, scope id). -/
inductive SockAddr
  | V4 (addr : Ipv4Addr) (port : Nat)
  | V6 (addr : Ipv6Addr) (port : Nat) (flowinfo : Nat) (scope_id : Nat)
deriving DecidableEq, Repr

/-- `SocketAddr::is_ipv4`. -/
def SockAddr.is_ipv4 : SockAddr → Bool
  | .V4 _ _ => true
  | .V6 _ _ _ _ => false

/-- Split a character list at every occurrence of a separator character
(the list analogue of splitting a string on `'.'` or `':'`). -/
def splitChar (sep : Char) : List Char → List (List Char)
  | [] => [[]]
  | c :: rest =>
    if c = sep then [] :: splitChar sep rest
    else
      match splitChar sep rest with
      | [] => [[c]]
      | g :: gs => (c :: g) :: gs

/-- Split a character list at every non-overlapping occurrence of a double
colon, as splitting the host string on the `"::"` separator does. -/
def splitOnDoubleColon : List Char → List (List Char)
  | [] => [[]]
  | ':' :: ':' :: rest => [] :: splitOnDoubleColon rest
  | c :: rest =>
    match splitOnDoubleColon rest with
    | [] => [[c]]
    | g :: gs => (c :: g) :: gs

/-- One decimal octet of a dotted IPv4 literal: one or more decimal digits
with value at most 255. -/
def parseDecOctet (cs : List Char) : Option Nat :=
  if cs.isEmpty then none
  else if cs.all (fun c => c.isDigit) then
    let v := cs.foldl (fun acc c => acc * 10 + (c.toNat - 48)) 0
    if v ≤ 255 then some v else none
  else none

/-- Models `std::net::Ipv4Addr::from_str` (external library): exactly four
dot-separated decimal octets. -/
def parseIpv4Chars (s : List Char) : Option Ipv4Addr :=
  match splitChar '.' s with
  | [p1, p2, p3, p4] =>
    match parseDecOctet p1, parseDecOctet p2, parseDecOctet p3, parseDecOctet p4 with
    | some a, some b, some c, some d => some ⟨a, b, c, d⟩
    | _, _, _, _ => none
  | _ => none

/-- Numeric value of one hexadecimal digit. -/
def hexVal (c : Char) : Option Nat :=
  if '0' ≤ c ∧ c ≤ '9' then some (c.toNat - 48)
  else if 'a' ≤ c ∧ c ≤ 'f' then some (c.toNat - 87)
  else if 'A' ≤ c ∧ c ≤ 'F' then some (c.toNat - 55)
  else none

/-- One group of an IPv6 literal: one to four hexadecimal digits. -/
def parseHexGroup (cs : List Char) : Option Nat :=
  if cs.length = 0 ∨ 4 < cs.length then none
  else cs.foldlM (fun acc c => (hexVal c).map (fun v => acc * 16 + v)) 0

/-- Hexadecimal groups, used for the part of an IPv6 literal before a
double colon. -/
def parseHexGroups : List (List Char) → Option (List Nat)
  | [] => some []
  | g :: gs =>
    match parseHexGroup g, parseHexGroups gs with
    | some v, some vs => some (v :: vs)
    | _, _ => none

/-- Trailing groups of an IPv6 literal: hexadecimal groups where the final
group may instead be an embedded dotted IPv4 literal contributing two
16-bit groups. -/
def parseGroupsFinal : List (List Char) → Option (List Nat)
  | [] => some []
  | [x] =>
    match parseHexGroup x with
    | some g => some [g]
    | none =>
      match parseIpv4Chars x with
      | some v4 => some [v4.a * 256 + v4.b, v4.c * 256 + v4.d]
      | none => none
  | x :: rest =>
    match parseHexGroup x, parseGroupsFinal rest with
    | some g, some gs => some (g :: gs)
    | _, _ => none

/-- Models `std::net::Ipv6Addr::from_str` (external library): eight
colon-separated groups, at most one double colon standing for the missing
zero groups, and an optional embedded IPv4 literal as the final group. -/
def parseIpv6Chars (s : List Char) : Option Ipv6Addr :=
  match splitOnDoubleColon s with
  | [whole] =>
    match parseGroupsFinal (splitChar ':' whole) with
    | some gs => if gs.length = 8 then some ⟨gs⟩ else none
    | none => none
  | [l, r] =>
    match parseHexGroups (if l.isEmpty then [] else splitChar ':' l),
          parseGroupsFinal (if r.isEmpty then [] else splitChar ':' r) with
    | some heads, some tails =>
      if heads.length + tails.length ≤ 7 then
        some ⟨heads ++ List.replicate (8 - heads.length - tails.length) 0 ++ tails⟩
      else none
    | _, _ => none
  | _ => none

/-- `host.parse::<Ipv4Addr>()` on a host string. -/
def parseIpv4 (s : String) : Option Ipv4Addr :=
  parseIpv4Chars s.toList

/-- `host.parse::<Ipv6Addr>()` on a host string. -/
def parseIpv6 (s : String) : Option Ipv6Addr :=
  parseIpv6Chars s.toList

/-- `dns::IpAddrs` wraps a `vec::IntoIter<SocketAddr>`; its remaining
contents are a list, and cloning it restarts from the same list. -/
abbrev IpAddrs := List SockAddr

/-- `IpAddrs::try_parse` (dns.rs): attempt to read the host as a literal
IPv4 address, then as a literal IPv6 address; on success produce the single
corresponding socket address with the given port (IPv6 with zero flowinfo
and scope id). -/
def IpAddrs.try_parse (host : String) (port : Nat) : Option IpAddrs :=
  match parseIpv4 host with
  | some addr => some [SockAddr.V4 addr port]
  | none =>
    match parseIpv6 host with
    | some addr => some [SockAddr.V6 addr port 0 0]
    | none => none

/-- Model of `tokio::net::TcpStream`: an identity plus the keep-alive
option applied to the socket (set by `set_keepalive`). -/
structure TcpStream where
  id : Nat
  keepalive : Option Nat
deriving DecidableEq, Repr

/-- Outcome of polling an in-flight TCP connect future
(`Poll<TcpStream, io::Error>`). -/
inductive FutPoll
  | ready (s : TcpStream)
  | notReady
  | err (e : IoError)
deriving DecidableEq, Repr

/-- Outcome of polling a spawned resolution future
(`Poll<dns::IpAddrs, io::Error>`). -/
inductive ResPoll
  | ready (addrs : IpAddrs)
  | notReady
  | err (e : IoError)
deriving DecidableEq, Repr

/-- The external collaborators, as oracles.  `tcp_connect` models the
synchronous part of `fn tcp_connect` (socket creation of the matching
family, optional bind to the local address, conversion to a stream):
it yields either an error or a handle to the in-flight connect future
made by `TcpStream::connect_stream`.  `pollFut` gives the behaviour of
such a future on its next poll.  `spawn` models `oneshot::spawn` of a
`dns::Work` on the executor, returning the handle whose poll behaviour
`pollRes` gives (resolution itself is `to_socket_addrs`, an external
call).  `set_keepalive` models `TcpStream::set_keepalive`, returning
`some e` when the syscall fails. -/
structure Env where
  tcp_connect : SockAddr → Option IpAddr → Except IoError Nat
  pollFut : Nat → FutPoll
  spawn : String → Nat → Nat
  pollRes : Nat → ResPoll
  set_keepalive : TcpStream → Nat → Option IoError

/-- `struct ConnectingTcp`: the optional local bind address, the resolved
address iterator, and the optional in-flight connect future. -/
structure ConnectingTcp where
  local_address : Option IpAddr
  addrs : IpAddrs
  current : Option Nat
deriving DecidableEq, Repr

/-- The family-mismatch guard at the top of both candidate loops in
`ConnectingTcp::poll`: when a local address is set and the candidate's IP
family differs, the candidate is skipped (`continue`). -/
def familyMismatch (loc : Option IpAddr) (addr : SockAddr) : Bool :=
  match loc with
  | some l => addr.is_ipv4 != l.is_ipv4
  | none => false

/-- One pass of the candidate `for` loop of `ConnectingTcp::poll` (both the
`if` and `else` branches run this same loop body): walk the cloned address
list, skip family mismatches, call `tcp_connect` on each remaining
candidate; on the first success `break` with the new future, on each
failure overwrite the recorded error and fall through.  Returns the future
produced by a successful `tcp_connect` (if any), the final recorded error,
and the list of candidates on which `tcp_connect` was invoked, in order. -/
def connectEachAddr (env : Env) (loc : Option IpAddr) :
    List SockAddr → Option IoError → Option Nat × Option IoError × List SockAddr
  | [], err => (none, err, [])
  | addr :: rest, err =>
    if familyMismatch loc addr then connectEachAddr env loc rest err
    else
      match env.tcp_connect addr loc with
      | .ok f => (some f, err, [addr])
      | .error e =>
        let r := connectEachAddr env loc rest (some e)
        (r.1, r.2.1, addr :: r.2.2)

/-- Outcome of `ConnectingTcp::poll`: `Ok(Async::Ready)`, `Ok(Async::NotReady)`,
`Err`, or a panic (the `expect` on a missing error). -/
inductive TcpPollOut
  | ready (s : TcpStream)
  | notReady
  | err (e : IoError)
  | panic (msg : String)
deriving DecidableEq, Repr

/-- `ConnectingTcp::poll`.  With an in-flight future, poll it: any `Ok`
(ready or not-ready) is returned as is; on error the error is recorded and
the candidate loop runs over a clone of the full address list, replacing
`current` only when some `tcp_connect` succeeds.  With no in-flight future,
the candidate loop runs directly.  In either case control then reaches the
unconditional `return Err(err.take().expect("missing connect error"))`
that ends the single iteration of the enclosing `loop`.  Returns the poll
outcome, the updated state, and the candidates attempted. -/
def ConnectingTcp.poll (env : Env) (self : ConnectingTcp) :
    TcpPollOut × ConnectingTcp × List SockAddr :=
  match self.current with
  | some cur =>
    match env.pollFut cur with
    | .ready s => (.ready s, self, [])
    | .notReady => (.notReady, self, [])
    | .err e =>
      let r := connectEachAddr env self.local_address self.addrs (some e)
      let self2 := { self with current := some (r.1.getD cur) }
      match r.2.1 with
      | some e2 => (.err e2, self2, r.2.2)
      | none => (.panic "missing connect error", self2, r.2.2)
  | none =>
    let r := connectEachAddr env self.local_address self.addrs none
    let self2 := { self with current := r.1 }
    match r.2.1 with
    | some e2 => (.err e2, self2, r.2.2)
    | none => (.panic "missing connect error", self2, r.2.2)

/-- `enum State` of `HttpConnecting`.  `Lazy` carries host, port and the
local address (the executor lives in `Env`); `Resolving` carries the
spawned resolution handle and the local address. -/
inductive State
  | Lazy (host : String) (port : Nat) (local_address : Option IpAddr)
  | Resolving (fut : Nat) (local_address : Option IpAddr)
  | Connecting (c : ConnectingTcp)
  | Error (e : Option IoError)
deriving DecidableEq, Repr

/-- `struct HttpConnecting` (the reactor handle lives in `Env`). -/
structure HttpConnecting where
  state : State
  keep_alive_timeout : Option Nat
deriving DecidableEq, Repr

/-- Outcome of one `HttpConnecting::poll` call. -/
inductive HttpPollOut
  | ready (s : TcpStream)
  | notReady
  | err (e : IoError)
  | panic (msg : String)
deriving DecidableEq, Repr

/-- Observable side effects of one `HttpConnecting::poll` call: the
resolution tasks submitted to the worker pool (`oneshot::spawn`), and the
candidate addresses on which `tcp_connect` was invoked. -/
structure Effects where
  spawned : List (String × Nat)
  attempts : List SockAddr
deriving DecidableEq, Repr

/-- The `State::Connecting` arm of `HttpConnecting::poll`:
`try_ready!(c.poll(&self.handle))`, then if a keep-alive timeout is
configured, `sock.set_keepalive(Some(dur))?` before returning the
socket. -/
def pollConnecting (env : Env) (keep : Option Nat) (c : ConnectingTcp) :
    HttpPollOut × State × List SockAddr :=
  let r := ConnectingTcp.poll env c
  match r.1 with
  | .ready sock =>
    match keep with
    | some dur =>
      match env.set_keepalive sock dur with
      | some e => (.err e, .Connecting r.2.1, r.2.2)
      | none => (.ready { sock with keepalive := some dur }, .Connecting r.2.1, r.2.2)
    | none => (.ready sock, .Connecting r.2.1, r.2.2)
  | .notReady => (.notReady, .Connecting r.2.1, r.2.2)
  | .err e => (.err e, .Connecting r.2.1, r.2.2)
  | .panic m => (.panic m, .Connecting r.2.1, r.2.2)

/-- `HttpConnecting::poll` (`impl Future for HttpConnecting`), with the
state-transition `loop` unrolled: `Lazy` moves to `Connecting` when the
host parses as a literal IP, otherwise spawns the resolution work and
moves to `Resolving`, which is then polled in the same call; `Resolving`
propagates `try!` errors and not-ready, and moves to `Connecting` on ready;
`Error` takes the stored error, panicking with "polled more than once"
when it was already taken.  Returns the outcome, the updated future, and
the side effects of this call. -/
def HttpConnecting.poll (env : Env) (self : HttpConnecting) :
    HttpPollOut × HttpConnecting × Effects :=
  match self.state with
  | .Lazy host port loc =>
    match IpAddrs.try_parse host port with
    | some addrs =>
      let c : ConnectingTcp := { local_address := loc, addrs := addrs, current := none }
      let r := pollConnecting env self.keep_alive_timeout c
      (r.1, { self with state := r.2.1 }, { spawned := [], attempts := r.2.2 })
    | none =>
      let fut := env.spawn host port
      match env.pollRes fut with
      | .notReady =>
        (.notReady, { self with state := .Resolving fut loc },
          { spawned := [(host, port)], attempts := [] })
      | .err e =>
        (.err e, { self with state := .Resolving fut loc },
          { spawned := [(host, port)], attempts := [] })
      | .ready addrs =>
        let c : ConnectingTcp := { local_address := loc, addrs := addrs, current := none }
        let r := pollConnecting env self.keep_alive_timeout c
        (r.1, { self with state := r.2.1 }, { spawned := [(host, port)], attempts := r.2.2 })
  | .Resolving fut loc =>
    match env.pollRes fut with
    | .notReady => (.notReady, self, { spawned := [], attempts := [] })
    | .err e => (.err e, self, { spawned := [], attempts := [] })
    | .ready addrs =>
      let c : ConnectingTcp := { local_address := loc, addrs := addrs, current := none }
      let r := pollConnecting env self.keep_alive_timeout c
      (r.1, { self with state := r.2.1 }, { spawned := [], attempts := r.2.2 })
  | .Connecting c =>
    let r := pollConnecting env self.keep_alive_timeout c
    (r.1, { self with state := r.2.1 }, { spawned := [], attempts := r.2.2 })
  | .Error e =>
    match e with
    | some er => (.err er, { self with state := .Error none }, { spawned := [], attempts := [] })
    | none => (.panic "polled more than once", self, { spawned := [], attempts := [] })

/-- `fn invalid_url`: an `HttpConnecting` in the `Error` state holding an
`InvalidInput` io error whose cause is the given `InvalidUrl`, with no
keep-alive timeout. -/
def invalid_url (err : InvalidUrl) : HttpConnecting :=
  { state := .Error (some { kind := .InvalidInput, cause := some err }),
    keep_alive_timeout := none }

/-- `struct HttpConnector` (the executor and reactor handle live in
`Env`). -/
structure HttpConnector where
  enforce_http : Bool
  keep_alive_timeout : Option Nat
  local_address : Option IpAddr
deriving DecidableEq, Repr

/-- `HttpConnector::new` / `new_with_executor` defaults: scheme enforcement
on, no keep-alive, no local bind address. -/
def HttpConnector.new : HttpConnector :=
  { enforce_http := true, keep_alive_timeout := none, local_address := none }

/-- The relevant parts of a parsed `Uri`: scheme, host (authority), and
explicit port. -/
structure Uri where
  scheme : Option String
  host : Option String
  port : Option Nat
deriving DecidableEq, Repr

/-- The fallthrough of `HttpConnector::call` once the scheme checks pass:
fail with `MissingAuthority` when the host is absent, otherwise compute
the port (explicit, else 443 for the `https` scheme, else 80) and start in
the `Lazy` state with the configured local address and keep-alive
timeout. -/
def HttpConnector.callValidated (self : HttpConnector) (uri : Uri) : HttpConnecting :=
  match uri.host with
  | none => invalid_url InvalidUrl.MissingAuthority
  | some host =>
    let port :=
      match uri.port with
      | some p => p
      | none => if uri.scheme = some "https" then 443 else 80
    { state := .Lazy host port self.local_address,
      keep_alive_timeout := self.keep_alive_timeout }

/-- `HttpConnector::call` (`impl Service for HttpConnector`): when scheme
enforcement is on, any scheme other than `http` (including an absent one)
fails with `NotHttp`; when it is off, an absent scheme fails with
`MissingScheme`; otherwise validation continues with the host and port. -/
def HttpConnector.call (self : HttpConnector) (uri : Uri) : HttpConnecting :=
  if self.enforce_http then
    if uri.scheme ≠ some "http" then invalid_url InvalidUrl.NotHttp
    else self.callValidated uri
  else if uri.scheme = none then invalid_url InvalidUrl.MissingScheme
  else self.callValidated uri

/-- The candidates of an address list that the family-mismatch guard does
not skip. -/
def eligibleAddrs (loc : Option IpAddr) (addrs : List SockAddr) : List SockAddr :=
  addrs.filter (fun a => !familyMismatch loc a)

theorem connectEachAddr_nil (env : Env) (loc : Option IpAddr) (err : Option IoError) :
    connectEachAddr env loc [] err = (none, err, []) := rfl

theorem connectEachAddr_cons_skip (env : Env) (loc : Option IpAddr) (addr : SockAddr)
    (rest : List SockAddr) (err : Option IoError) (h : familyMismatch loc addr = true) :
    connectEachAddr env loc (addr :: rest) err = connectEachAddr env loc rest err := by
  simp [connectEachAddr, h]

theorem connectEachAddr_cons_ok (env : Env) (loc : Option IpAddr) (addr : SockAddr)
    (rest : List SockAddr) (err : Option IoError) (h : familyMismatch loc addr = false)
    (f : Nat) (hf : env.tcp_connect addr loc = .ok f) :
    connectEachAddr env loc (addr :: rest) err = (some f, err, [addr]) := by
  simp [connectEachAddr, h, hf]

theorem connectEachAddr_cons_err (env : Env) (loc : Option IpAddr) (addr : SockAddr)
    (rest : List SockAddr) (err : Option IoError) (h : familyMismatch loc addr = false)
    (e : IoError) (he : env.tcp_connect addr loc = .error e) :
    connectEachAddr env loc (addr :: rest) err =
      ((connectEachAddr env loc rest (some e)).1,
       (connectEachAddr env loc rest (some e)).2.1,
       addr :: (connectEachAddr env loc rest (some e)).2.2) := by
  simp [connectEachAddr, h, he]

theorem connectEachAddr_attempts_noskip (env : Env) (loc : Option IpAddr) :
    ∀ (addrs : List SockAddr) (err : Option IoError) (a : SockAddr),
      a ∈ (connectEachAddr env loc addrs err).2.2 → familyMismatch loc a = false := by
  intro addrs
  induction addrs with
  | nil => intro err a h; simp [connectEachAddr_nil] at h
  | cons addr rest ih =>
    intro err a h
    cases hm : familyMismatch loc addr with
    | true =>
      rw [connectEachAddr_cons_skip env loc addr rest err hm] at h
      exact ih err a h
    | false =>
      cases hc : env.tcp_connect addr loc with
      | ok f =>
        rw [connectEachAddr_cons_ok env loc addr rest err hm f hc] at h
        simp at h
        subst h
        exact hm
      | error e =>
        rw [connectEachAddr_cons_err env loc addr rest err hm e hc] at h
        simp at h
        rcases h with h | h
        · subst h; exact hm
        · exact ih (some e) a h

theorem connectEachAddr_eq_filter (env : Env) (loc : Option IpAddr) :
    ∀ (addrs : List SockAddr) (err : Option IoError),
      connectEachAddr env loc addrs err =
        connectEachAddr env loc (eligibleAddrs loc addrs) err := by
  intro addrs
  induction addrs with
  | nil => intro err; rfl
  | cons addr rest ih =>
    intro err
    cases hm : familyMismatch loc addr with
    | true =>
      rw [connectEachAddr_cons_skip env loc addr rest err hm]
      have hel : eligibleAddrs loc (addr :: rest) = eligibleAddrs loc rest := by
        simp [eligibleAddrs, List.filter_cons, hm]
      rw [hel]
      exact ih err
    | false =>
      have hel : eligibleAddrs loc (addr :: rest) = addr :: eligibleAddrs loc rest := by
        simp [eligibleAddrs, List.filter_cons, hm]
      rw [hel]
      cases hc : env.tcp_connect addr loc with
      | ok f =>
        rw [connectEachAddr_cons_ok env loc addr rest err hm f hc,
            connectEachAddr_cons_ok env loc addr (eligibleAddrs loc rest) err hm f hc]
      | error e =>
        rw [connectEachAddr_cons_err env loc addr rest err hm e hc,
            connectEachAddr_cons_err env loc addr (eligibleAddrs loc rest) err hm e hc,
            ih (some e)]

theorem connectEachAddr_allFail (env : Env) (loc : Option IpAddr) :
    ∀ (l : List SockAddr) (err0 : Option IoError) (lastA : SockAddr),
      (∀ a ∈ l, familyMismatch loc a = false) →
      (∀ a ∈ l, ∃ e, env.tcp_connect a loc = .error e) →
      l.getLast? = some lastA →
      ∃ e, env.tcp_connect lastA loc = .error e ∧
        connectEachAddr env loc l err0 = (none, some e, l) := by
  intro l
  induction l with
  | nil => intro err0 lastA _ _ h; simp at h
  | cons addr rest ih =>
    intro err0 lastA hns hf hlast
    obtain ⟨ea, hea⟩ := hf addr (List.mem_cons_self _ _)
    have hm := hns addr (List.mem_cons_self _ _)
    cases rest with
    | nil =>
      simp at hlast
      subst hlast
      refine ⟨ea, hea, ?_⟩
      rw [connectEachAddr_cons_err env loc addr [] err0 hm ea hea]
      simp [connectEachAddr_nil]
    | cons b rest2 =>
      have hlast2 : (b :: rest2).getLast? = some lastA := by
        rwa [List.getLast?_cons_cons] at hlast
      obtain ⟨e, he, heq⟩ := ih (some ea) lastA
        (fun a ha => hns a (List.mem_cons_of_mem _ ha))
        (fun a ha => hf a (List.mem_cons_of_mem _ ha)) hlast2
      refine ⟨e, he, ?_⟩
      rw [connectEachAddr_cons_err env loc addr (b :: rest2) err0 hm ea hea, heq]

theorem connectEachAddr_err_none (env : Env) (loc : Option IpAddr) :
    ∀ (addrs : List SockAddr) (err0 : Option IoError),
      (connectEachAddr env loc addrs err0).2.1 = none →
      err0 = none ∧
        ∀ a ∈ (connectEachAddr env loc addrs err0).2.2,
          ∃ f, env.tcp_connect a loc = .ok f := by
  intro addrs
  induction addrs with
  | nil =>
    intro err0 h
    refine ⟨by simpa [connectEachAddr_nil] using h, ?_⟩
    simp [connectEachAddr_nil]
  | cons addr rest ih =>
    intro err0 h
    cases hm : familyMismatch loc addr with
    | true =>
      rw [connectEachAddr_cons_skip env loc addr rest err0 hm] at h ⊢
      exact ih err0 h
    | false =>
      cases hc : env.tcp_connect addr loc with
      | ok f =>
        rw [connectEachAddr_cons_ok env loc addr rest err0 hm f hc] at h ⊢
        refine ⟨h, ?_⟩
        intro a ha
        simp at ha
        subst ha
        exact ⟨f, hc⟩
      | error e =>
        rw [connectEachAddr_cons_err env loc addr rest err0 hm e hc] at h
        obtain ⟨h1, _⟩ := ih (some e) h
        exact absurd h1 (Option.some_ne_none e)

theorem ConnectingTcp.poll_none_components (env : Env) (la : Option IpAddr) (ad : List SockAddr) :
    (ConnectingTcp.poll env ⟨la, ad, none⟩).2.2 = (connectEachAddr env la ad none).2.2 ∧
    (ConnectingTcp.poll env ⟨la, ad, none⟩).2.1 = ⟨la, ad, (connectEachAddr env la ad none).1⟩ ∧
    ((connectEachAddr env la ad none).2.1 = none →
      (ConnectingTcp.poll env ⟨la, ad, none⟩).1 = .panic "missing connect error") ∧
    (∀ e, (connectEachAddr env la ad none).2.1 = some e →
      (ConnectingTcp.poll env ⟨la, ad, none⟩).1 = .err e) := by
  cases h : (connectEachAddr env la ad none).2.1 <;>
    simp [ConnectingTcp.poll, h]

theorem ConnectingTcp.poll_some_attempts (env : Env) (la : Option IpAddr) (ad : List SockAddr)
    (cur : Nat) :
    (ConnectingTcp.poll env ⟨la, ad, some cur⟩).2.2 = [] ∨
    ∃ e, (ConnectingTcp.poll env ⟨la, ad, some cur⟩).2.2 =
      (connectEachAddr env la ad (some e)).2.2 := by
  cases hp : env.pollFut cur with
  | ready s => left; simp [ConnectingTcp.poll, hp]
  | notReady => left; simp [ConnectingTcp.poll, hp]
  | err e =>
    right
    refine ⟨e, ?_⟩
    cases h2 : (connectEachAddr env la ad (some e)).2.1 <;>
      simp [ConnectingTcp.poll, hp, h2]

theorem pollConnecting_state (env : Env) (keep : Option Nat) (c : ConnectingTcp) :
    ∃ c2, (pollConnecting env keep c).2.1 = .Connecting c2 := by
  cases hr : (ConnectingTcp.poll env c).1 with
  | ready sock =>
    cases keep with
    | some dur =>
      cases hk : env.set_keepalive sock dur <;> simp [pollConnecting, hr, hk]
    | none => simp [pollConnecting, hr]
  | notReady => simp [pollConnecting, hr]
  | err e => simp [pollConnecting, hr]
  | panic m => simp [pollConnecting, hr]

theorem pollConnecting_keep (env : Env) (dur : Nat) (c : ConnectingTcp) :
    (∀ s, (pollConnecting env (some dur) c).1 = .ready s → s.keepalive = some dur) ∧
    (∀ sock e, (ConnectingTcp.poll env c).1 = .ready sock →
       env.set_keepalive sock dur = some e →
       (pollConnecting env (some dur) c).1 = .err e) := by
  constructor
  · intro s hs
    cases hr : (ConnectingTcp.poll env c).1 with
    | ready sock =>
      cases hk : env.set_keepalive sock dur with
      | some e => simp [pollConnecting, hr, hk] at hs
      | none =>
        simp [pollConnecting, hr, hk] at hs
        rw [← hs]
    | notReady => simp [pollConnecting, hr] at hs
    | err e => simp [pollConnecting, hr] at hs
    | panic m => simp [pollConnecting, hr] at hs
  · intro sock e hr hk
    simp [pollConnecting, hr, hk]

theorem HttpConnector.callValidated_host (cfg : HttpConnector) (uri : Uri) (host : String)
    (hh : uri.host = some host) :
    cfg.callValidated uri =
      { state := .Lazy host (uri.port.getD (if uri.scheme = some "https" then 443 else 80))
          cfg.local_address,
        keep_alive_timeout := cfg.keep_alive_timeout } := by
  cases hp : uri.port <;> simp [HttpConnector.callValidated, hh, hp]

/-- The port of a socket address, used to build distinguishable errors in
concrete test environments. -/
def SockAddr.portOf : SockAddr → Nat
  | .V4 _ p => p
  | .V6 _ p _ _ => p

/-- Concrete environment: every socket setup succeeds at once with future
handle 1, every connect future completes with stream 5, keep-alive setting
succeeds, resolution never completes. -/
def envAllOk : Env :=
  { tcp_connect := fun _ _ => .ok 1,
    pollFut := fun _ => .ready ⟨5, none⟩,
    spawn := fun _ _ => 0,
    pollRes := fun _ => .notReady,
    set_keepalive := fun _ _ => none }

/-- Concrete environment: every socket setup fails with an error recording
the candidate's port. -/
def envAllFail : Env :=
  { tcp_connect := fun a _ => .error ⟨.Other a.portOf, none⟩,
    pollFut := fun _ => .notReady,
    spawn := fun _ _ => 0,
    pollRes := fun _ => .notReady,
    set_keepalive := fun _ _ => none }

def addrA : SockAddr := .V4 ⟨10, 0, 0, 1⟩ 80
def addrB : SockAddr := .V4 ⟨10, 0, 0, 2⟩ 80
def addrC : SockAddr := .V4 ⟨10, 0, 0, 3⟩ 80
def errAddrA : IoError := ⟨.Other 1, none⟩
def errAddrB : IoError := ⟨.Other 2, none⟩

/-- Concrete environment for the three-candidate scenario: socket setup
fails for `addrA` and `addrB` and succeeds for every other candidate
(future handle 7), which then connects successfully. -/
def envTwoFailThenOk : Env :=
  { tcp_connect := fun a _ =>
      if a = addrA then .error errAddrA
      else if a = addrB then .error errAddrB
      else .ok 7,
    pollFut := fun _ => .ready ⟨7, none⟩,
    spawn := fun _ _ => 0,
    pollRes := fun _ => .notReady,
    set_keepalive := fun _ _ => none }

/-- C1: evaluation of `ConnectingTcp::poll` at the claim's scenario
`[A, B, C]` with A and B failing and C succeeding.  The first poll invokes
`tcp_connect` on all three candidates and C's connect future is installed
as `current`, yet the poll returns B's stale error instead of resolving
with a socket connected to C: the unconditional
`return Err(err.take().expect(..))` after the candidate loop discards the
successful attempt.  This refutes the claimed success behaviour. -/
theorem connect_falls_to_stale_error :
    (ConnectingTcp.poll envTwoFailThenOk ⟨none, [addrA, addrB, addrC], none⟩).1 = .err errAddrB ∧
    (ConnectingTcp.poll envTwoFailThenOk ⟨none, [addrA, addrB, addrC], none⟩).2.1.current = some 7 ∧
    (ConnectingTcp.poll envTwoFailThenOk ⟨none, [addrA, addrB, addrC], none⟩).2.2 =
      [addrA, addrB, addrC] := by
  refine ⟨?_, ?_, ?_⟩ <;> decide

/-- C2: when every eligible candidate's connection attempt fails, the poll
fails with exactly the error produced by the last candidate attempted
(earlier errors are overwritten), and the candidates are attempted in
order, the eligible ones exactly. -/
theorem connect_last_error_wins (env : Env) (loc : Option IpAddr) (addrs : List SockAddr)
    (lastA : SockAddr)
    (hlast : (eligibleAddrs loc addrs).getLast? = some lastA)
    (hfail : ∀ a ∈ eligibleAddrs loc addrs, ∃ e, env.tcp_connect a loc = .error e) :
    ∃ e, env.tcp_connect lastA loc = .error e ∧
      (ConnectingTcp.poll env ⟨loc, addrs, none⟩).1 = .err e ∧
      (ConnectingTcp.poll env ⟨loc, addrs, none⟩).2.2 = eligibleAddrs loc addrs := by
  have hns : ∀ a ∈ eligibleAddrs loc addrs, familyMismatch loc a = false := by
    intro a ha
    rw [eligibleAddrs] at ha
    have := (List.mem_filter.mp ha).2
    simpa using this
  obtain ⟨e, he, heq⟩ :=
    connectEachAddr_allFail env loc (eligibleAddrs loc addrs) none lastA hns hfail hlast
  have hfull : connectEachAddr env loc addrs none = (none, some e, eligibleAddrs loc addrs) := by
    rw [connectEachAddr_eq_filter, heq]
  obtain ⟨hatt, _, _, herr⟩ := ConnectingTcp.poll_none_components env loc addrs
  refine ⟨e, he, ?_, ?_⟩
  · exact herr e (by rw [hfull])
  · rw [hatt, hfull]

theorem connect_last_error_wins_witness :
    ∃ e, envAllFail.tcp_connect (SockAddr.V4 ⟨10, 0, 0, 2⟩ 81) none = .error e ∧
      (ConnectingTcp.poll envAllFail
        ⟨none, [SockAddr.V4 ⟨10, 0, 0, 1⟩ 80, SockAddr.V4 ⟨10, 0, 0, 2⟩ 81], none⟩).1 = .err e ∧
      (ConnectingTcp.poll envAllFail
        ⟨none, [SockAddr.V4 ⟨10, 0, 0, 1⟩ 80, SockAddr.V4 ⟨10, 0, 0, 2⟩ 81], none⟩).2.2 =
        eligibleAddrs none [SockAddr.V4 ⟨10, 0, 0, 1⟩ 80, SockAddr.V4 ⟨10, 0, 0, 2⟩ 81] :=
  connect_last_error_wins envAllFail none
    [SockAddr.V4 ⟨10, 0, 0, 1⟩ 80, SockAddr.V4 ⟨10, 0, 0, 2⟩ 81]
    (SockAddr.V4 ⟨10, 0, 0, 2⟩ 81) (by decide)
    (fun a _ => ⟨⟨.Other a.portOf, none⟩, rfl⟩)

/-- C3: when a local bind address is configured, every candidate on which
`tcp_connect` is invoked has the local address's IP family — a candidate
of the other family is never attempted; in particular with an IPv4 local
address and candidates `[IPv6-addr, IPv4-addr]` exactly the IPv4 candidate
is attempted. -/
theorem family_filter_skips (env : Env) :
    (∀ (self : ConnectingTcp) (l : IpAddr), self.local_address = some l →
       ∀ a ∈ (ConnectingTcp.poll env self).2.2, a.is_ipv4 = l.is_ipv4) ∧
    (∀ (l : Ipv4Addr) (x : Ipv6Addr) (px fx sx : Nat) (y : Ipv4Addr) (py : Nat),
       (ConnectingTcp.poll env
         ⟨some (.v4 l), [SockAddr.V6 x px fx sx, SockAddr.V4 y py], none⟩).2.2 =
         [SockAddr.V4 y py]) := by
  constructor
  · rintro ⟨la, ad, cur⟩ l hl a ha
    simp only at hl
    subst hl
    have hfam : familyMismatch (some l) a = false → a.is_ipv4 = l.is_ipv4 := by
      intro h
      simpa [familyMismatch] using h
    cases cur with
    | none =>
      obtain ⟨hatt, _, _, _⟩ := ConnectingTcp.poll_none_components env (some l) ad
      rw [hatt] at ha
      exact hfam (connectEachAddr_attempts_noskip env (some l) ad none a ha)
    | some cur =>
      rcases ConnectingTcp.poll_some_attempts env (some l) ad cur with h0 | ⟨e, h0⟩
      · rw [h0] at ha; simp at ha
      · rw [h0] at ha
        exact hfam (connectEachAddr_attempts_noskip env (some l) ad (some e) a ha)
  · intro l x px fx sx y py
    have hm6 : familyMismatch (some (IpAddr.v4 l)) (SockAddr.V6 x px fx sx) = true := rfl
    have hm4 : familyMismatch (some (IpAddr.v4 l)) (SockAddr.V4 y py) = false := rfl
    obtain ⟨hatt, _, _, _⟩ :=
      ConnectingTcp.poll_none_components env (some (.v4 l)) [SockAddr.V6 x px fx sx, SockAddr.V4 y py]
    rw [hatt, connectEachAddr_cons_skip _ _ _ _ _ hm6]
    cases hc : env.tcp_connect (SockAddr.V4 y py) (some (.v4 l)) with
    | ok f => rw [connectEachAddr_cons_ok _ _ _ _ _ hm4 f hc]
    | error e =>
      rw [connectEachAddr_cons_err _ _ _ _ _ hm4 e hc]
      simp [connectEachAddr_nil]

theorem family_filter_skips_witness :
    (ConnectingTcp.poll envAllFail
      ⟨some (.v4 ⟨127, 0, 0, 1⟩),
       [SockAddr.V6 ⟨[0, 0, 0, 0, 0, 0, 0, 1]⟩ 443 0 0, SockAddr.V4 ⟨10, 0, 0, 9⟩ 80],
       none⟩).2.2 = [SockAddr.V4 ⟨10, 0, 0, 9⟩ 80] :=
  (family_filter_skips envAllFail).2 ⟨127, 0, 0, 1⟩ ⟨[0, 0, 0, 0, 0, 0, 0, 1]⟩ 443 0 0
    ⟨10, 0, 0, 9⟩ 80

/-- C10: a poll of `ConnectingTcp` with no attempt in flight never returns
not-ready: after the candidate loop it unconditionally takes the recorded
error, so it returns an error whenever some attempted candidate's socket
setup failed, and it panics with "missing connect error" both when no
candidate is eligible and when the first eligible candidate's socket setup
succeeds with no prior failure. -/
theorem first_poll_never_pending (env : Env) (self : ConnectingTcp)
    (h : self.current = none) :
    ((ConnectingTcp.poll env self).1 ≠ .notReady) ∧
    ((∃ a ∈ (ConnectingTcp.poll env self).2.2,
        ∃ e, env.tcp_connect a self.local_address = .error e) →
       ∃ e2, (ConnectingTcp.poll env self).1 = .err e2) ∧
    (eligibleAddrs self.local_address self.addrs = [] →
       (ConnectingTcp.poll env self).1 = .panic "missing connect error") ∧
    (∀ a rest f, eligibleAddrs self.local_address self.addrs = a :: rest →
       env.tcp_connect a self.local_address = .ok f →
       (ConnectingTcp.poll env self).1 = .panic "missing connect error") := by
  obtain ⟨la, ad, cur⟩ := self
  simp only at h
  subst h
  obtain ⟨hatt, _, hpan, herr⟩ := ConnectingTcp.poll_none_components env la ad
  refine ⟨?_, ?_, ?_, ?_⟩
  · cases h2 : (connectEachAddr env la ad none).2.1 with
    | none => rw [hpan h2]; intro hx; cases hx
    | some e => rw [herr e h2]; intro hx; cases hx
  · rintro ⟨a, ha, e, hae⟩
    cases h2 : (connectEachAddr env la ad none).2.1 with
    | some e2 => exact ⟨e2, herr e2 h2⟩
    | none =>
      obtain ⟨_, hok⟩ := connectEachAddr_err_none env la ad none h2
      rw [hatt] at ha
      obtain ⟨f, hf⟩ := hok a ha
      rw [hae] at hf
      cases hf
  · intro hel
    have h2 : connectEachAddr env la ad none = (none, none, []) := by
      rw [connectEachAddr_eq_filter, hel, connectEachAddr_nil]
    exact hpan (by rw [h2])
  · intro a rest f hel hok
    have hma : familyMismatch la a = false := by
      have ha : a ∈ eligibleAddrs la ad := by rw [hel]; exact List.mem_cons_self _ _
      rw [eligibleAddrs] at ha
      have := (List.mem_filter.mp ha).2
      simpa using this
    have h2 : connectEachAddr env la ad none = (some f, none, [a]) := by
      rw [connectEachAddr_eq_filter, hel, connectEachAddr_cons_ok _ _ _ _ _ hma f hok]
    exact hpan (by rw [h2])

theorem first_poll_never_pending_witness :
    (ConnectingTcp.poll envAllOk ⟨none, [], none⟩).1 = .panic "missing connect error" :=
  (first_poll_never_pending envAllOk ⟨none, [], none⟩ rfl).2.2.1 rfl

/-- C5: a URI failing validation (non-http scheme under enforcement, absent
scheme without enforcement, or missing host once the scheme checks pass)
yields an operation whose state already holds an `InvalidInput` error; its
first poll resolves immediately with that error, submitting no resolution
work and attempting no socket. -/
theorem invalid_uri_immediate (cfg : HttpConnector) (uri : Uri) (env : Env)
    (h : (cfg.enforce_http = true ∧ uri.scheme ≠ some "http") ∨
         (cfg.enforce_http = false ∧ uri.scheme = none) ∨
         (((cfg.enforce_http = true ∧ uri.scheme = some "http") ∨
           (cfg.enforce_http = false ∧ uri.scheme ≠ none)) ∧ uri.host = none)) :
    ∃ e, (cfg.call uri).state = .Error (some e) ∧ e.kind = .InvalidInput ∧
      (HttpConnecting.poll env (cfg.call uri)).1 = .err e ∧
      (HttpConnecting.poll env (cfg.call uri)).2.2 = ⟨[], []⟩ := by
  have hcall : ∃ v, cfg.call uri = invalid_url v := by
    rcases h with ⟨h1, h2⟩ | ⟨h1, h2⟩ | ⟨h1, h2⟩
    · exact ⟨.NotHttp, by simp [HttpConnector.call, h1, h2]⟩
    · exact ⟨.MissingScheme, by simp [HttpConnector.call, h1, h2]⟩
    · rcases h1 with ⟨h1, hs⟩ | ⟨h1, hs⟩
      · exact ⟨.MissingAuthority,
          by simp [HttpConnector.call, HttpConnector.callValidated, h1, hs, h2]⟩
      · exact ⟨.MissingAuthority,
          by simp [HttpConnector.call, HttpConnector.callValidated, h1, hs, h2]⟩
  obtain ⟨v, hv⟩ := hcall
  refine ⟨⟨.InvalidInput, some v⟩, ?_, rfl, ?_, ?_⟩ <;> rw [hv] <;> rfl

theorem invalid_uri_immediate_witness :
    ∃ e, (HttpConnector.new.call ⟨some "https", some "example.com", none⟩).state =
        .Error (some e) ∧ e.kind = .InvalidInput ∧
      (HttpConnecting.poll envAllOk
        (HttpConnector.new.call ⟨some "https", some "example.com", none⟩)).1 = .err e ∧
      (HttpConnecting.poll envAllOk
        (HttpConnector.new.call ⟨some "https", some "example.com", none⟩)).2.2 = ⟨[], []⟩ :=
  invalid_uri_immediate HttpConnector.new ⟨some "https", some "example.com", none⟩ envAllOk
    (Or.inl (by decide))

def uriNoScheme : Uri := ⟨none, some "example.com", none⟩

/-- C6 counterexample: a URI lacking a scheme, under the default
configuration (scheme enforcement enabled), fails with the `NotHttp`
error, not with `MissingScheme` as the claim states. -/
theorem missing_scheme_counterexample :
    uriNoScheme.scheme = none ∧
    (HttpConnector.new.call uriNoScheme).state =
      .Error (some ⟨.InvalidInput, some .NotHttp⟩) ∧
    (HttpConnector.new.call uriNoScheme).state ≠
      .Error (some ⟨.InvalidInput, some .MissingScheme⟩) := by
  refine ⟨rfl, ?_, ?_⟩ <;> decide

/-- C6 (amended): a URI lacking a scheme always fails synchronously with an
`InvalidInput`-class `InvalidUrl` error — `NotHttp` when scheme enforcement
is enabled, `MissingScheme` when it is disabled — with no resolution work
and no socket attempt. -/
theorem missing_scheme_amended (cfg : HttpConnector) (uri : Uri) (env : Env)
    (h : uri.scheme = none) :
    ∃ e, (cfg.call uri).state = .Error (some e) ∧ e.kind = .InvalidInput ∧
      e.cause = some (if cfg.enforce_http then InvalidUrl.NotHttp else InvalidUrl.MissingScheme) ∧
      (HttpConnecting.poll env (cfg.call uri)).1 = .err e ∧
      (HttpConnecting.poll env (cfg.call uri)).2.2 = ⟨[], []⟩ := by
  cases hE : cfg.enforce_http with
  | true =>
    have hcall : cfg.call uri = invalid_url .NotHttp := by
      simp [HttpConnector.call, hE, h]
    refine ⟨⟨.InvalidInput, some .NotHttp⟩, ?_, rfl, by simp [hE], ?_, ?_⟩ <;>
      rw [hcall] <;> rfl
  | false =>
    have hcall : cfg.call uri = invalid_url .MissingScheme := by
      simp [HttpConnector.call, hE, h]
    refine ⟨⟨.InvalidInput, some .MissingScheme⟩, ?_, rfl, by simp [hE], ?_, ?_⟩ <;>
      rw [hcall] <;> rfl

theorem missing_scheme_amended_witness :
    ∃ e, ((⟨false, none, none⟩ : HttpConnector).call uriNoScheme).state = .Error (some e) ∧
      e.kind = .InvalidInput ∧
      e.cause = some (if (⟨false, none, none⟩ : HttpConnector).enforce_http
        then InvalidUrl.NotHttp else InvalidUrl.MissingScheme) ∧
      (HttpConnecting.poll envAllOk ((⟨false, none, none⟩ : HttpConnector).call uriNoScheme)).1 =
        .err e ∧
      (HttpConnecting.poll envAllOk ((⟨false, none, none⟩ : HttpConnector).call uriNoScheme)).2.2 =
        ⟨[], []⟩ :=
  missing_scheme_amended ⟨false, none, none⟩ uriNoScheme envAllOk rfl

/-- C7: for a URI that passes validation, the operation starts in the
`Lazy` state with the URI's host and the target port: the explicit URI
port when present, otherwise 443 for the `https` scheme and 80 in every
other case. -/
theorem port_defaulting (cfg : HttpConnector) (uri : Uri) (host : String)
    (hs : if cfg.enforce_http then uri.scheme = some "http" else uri.scheme ≠ none)
    (hh : uri.host = some host) :
    (cfg.call uri).state =
      .Lazy host (uri.port.getD (if uri.scheme = some "https" then 443 else 80))
        cfg.local_address := by
  cases hE : cfg.enforce_http with
  | true =>
    rw [hE] at hs
    simp only [if_true] at hs
    have hcall : cfg.call uri = cfg.callValidated uri := by
      simp [HttpConnector.call, hE, hs]
    rw [hcall, HttpConnector.callValidated_host cfg uri host hh]
  | false =>
    rw [hE] at hs
    simp only [Bool.false_eq_true, if_false] at hs
    have hcall : cfg.call uri = cfg.callValidated uri := by
      simp [HttpConnector.call, hE, hs]
    rw [hcall, HttpConnector.callValidated_host cfg uri host hh]

theorem port_defaulting_witness :
    ((⟨false, none, none⟩ : HttpConnector).call ⟨some "https", some "h", none⟩).state =
      .Lazy "h" 443 none :=
  Eq.trans
    (port_defaulting ⟨false, none, none⟩ ⟨some "https", some "h", none⟩ "h" (by decide) rfl)
    (by decide)

/-- Concrete environment whose connect futures complete at once but whose
keep-alive syscall fails. -/
def envKeepaliveFail : Env :=
  { tcp_connect := fun _ _ => .ok 1,
    pollFut := fun _ => .ready ⟨5, none⟩,
    spawn := fun _ _ => 0,
    pollRes := fun _ => .notReady,
    set_keepalive := fun _ _ => some ⟨.Other 99, none⟩ }

/-- C8: with a keep-alive timeout configured, any socket the operation
hands to the caller carries that keep-alive duration, and a failure of the
keep-alive syscall on a freshly connected socket fails the whole poll with
that error — the caller never receives a socket without the option
applied. -/
theorem keepalive_applied (env : Env) (self : HttpConnecting) (dur : Nat)
    (hk : self.keep_alive_timeout = some dur) :
    (∀ s, (HttpConnecting.poll env self).1 = .ready s → s.keepalive = some dur) ∧
    (∀ c sock e, self.state = .Connecting c →
       (ConnectingTcp.poll env c).1 = .ready sock →
       env.set_keepalive sock dur = some e →
       (HttpConnecting.poll env self).1 = .err e) := by
  obtain ⟨st, ka⟩ := self
  simp only at hk
  subst hk
  constructor
  · intro s hs
    cases st with
    | Lazy host port loc =>
      cases htp : IpAddrs.try_parse host port with
      | some addrs =>
        have hs2 : (pollConnecting env (some dur) ⟨loc, addrs, none⟩).1 = .ready s := by
          simpa [HttpConnecting.poll, htp] using hs
        exact (pollConnecting_keep env dur _).1 s hs2
      | none =>
        cases hres : env.pollRes (env.spawn host port) with
        | ready addrs =>
          have hs2 : (pollConnecting env (some dur) ⟨loc, addrs, none⟩).1 = .ready s := by
            simpa [HttpConnecting.poll, htp, hres] using hs
          exact (pollConnecting_keep env dur _).1 s hs2
        | notReady => simp [HttpConnecting.poll, htp, hres] at hs
        | err e => simp [HttpConnecting.poll, htp, hres] at hs
    | Resolving fut loc =>
      cases hres : env.pollRes fut with
      | ready addrs =>
        have hs2 : (pollConnecting env (some dur) ⟨loc, addrs, none⟩).1 = .ready s := by
          simpa [HttpConnecting.poll, hres] using hs
        exact (pollConnecting_keep env dur _).1 s hs2
      | notReady => simp [HttpConnecting.poll, hres] at hs
      | err e => simp [HttpConnecting.poll, hres] at hs
    | Connecting c =>
      have hs2 : (pollConnecting env (some dur) c).1 = .ready s := by
        simpa [HttpConnecting.poll] using hs
      exact (pollConnecting_keep env dur _).1 s hs2
    | Error e =>
      cases e with
      | some er => simp [HttpConnecting.poll] at hs
      | none => simp [HttpConnecting.poll] at hs
  · intro c sock e hst hr hk2
    simp only at hst
    subst hst
    have := (pollConnecting_keep env dur c).2 sock e hr hk2
    simpa [HttpConnecting.poll] using this

theorem keepalive_applied_witness :
    TcpStream.keepalive ⟨5, some 30⟩ = some 30 ∧
    (HttpConnecting.poll envKeepaliveFail ⟨.Connecting ⟨none, [], some 1⟩, some 30⟩).1 =
      .err ⟨.Other 99, none⟩ :=
  ⟨(keepalive_applied envAllOk ⟨.Connecting ⟨none, [], some 1⟩, some 30⟩ 30 rfl).1
      ⟨5, some 30⟩ (by decide),
   (keepalive_applied envKeepaliveFail ⟨.Connecting ⟨none, [], some 1⟩, some 30⟩ 30 rfl).2
      ⟨none, [], some 1⟩ ⟨5, none⟩ ⟨.Other 99, none⟩ rfl (by decide) rfl⟩

/-- C9: polling an operation whose state holds a stored validation error
returns that error and leaves the state with the error taken; a second
poll then hits the "polled more than once" panic instead of silently
succeeding or repeating the error. -/
theorem error_state_double_poll (env : Env) (self : HttpConnecting) (e : IoError)
    (h : self.state = .Error (some e)) :
    (HttpConnecting.poll env self).1 = .err e ∧
    (HttpConnecting.poll env self).2.1.state = .Error none ∧
    (HttpConnecting.poll env (HttpConnecting.poll env self).2.1).1 =
      .panic "polled more than once" := by
  obtain ⟨st, ka⟩ := self
  simp only at h
  subst h
  exact ⟨rfl, rfl, rfl⟩

theorem error_state_double_poll_witness :
    (HttpConnecting.poll envAllOk ⟨.Error (some ⟨.Other 3, none⟩), none⟩).1 =
      .err ⟨.Other 3, none⟩ ∧
    (HttpConnecting.poll envAllOk
      (HttpConnecting.poll envAllOk ⟨.Error (some ⟨.Other 3, none⟩), none⟩).2.1).1 =
      .panic "polled more than once" :=
  ⟨(error_state_double_poll envAllOk ⟨.Error (some ⟨.Other 3, none⟩), none⟩
      ⟨.Other 3, none⟩ rfl).1,
   (error_state_double_poll envAllOk ⟨.Error (some ⟨.Other 3, none⟩), none⟩
      ⟨.Other 3, none⟩ rfl).2.2⟩

/-- C4: a host parsing as a literal IPv4 address yields exactly the one
IPv4 candidate with the given port (IPv4 is tried first); a host parsing
only as a literal IPv6 address yields exactly the one IPv6 candidate with
the given port; and for any literal host the first poll submits no work to
the worker pool and moves straight to the connecting state. -/
theorem literal_fast_path (host : String) (port : Nat) :
    (∀ a, parseIpv4 host = some a →
       IpAddrs.try_parse host port = some [SockAddr.V4 a port]) ∧
    (∀ a6, parseIpv4 host = none → parseIpv6 host = some a6 →
       IpAddrs.try_parse host port = some [SockAddr.V6 a6 port 0 0]) ∧
    (∀ (env : Env) (keep : Option Nat) (loc : Option IpAddr),
       (IpAddrs.try_parse host port).isSome = true →
       (HttpConnecting.poll env ⟨.Lazy host port loc, keep⟩).2.2.spawned = [] ∧
       ∃ c, (HttpConnecting.poll env ⟨.Lazy host port loc, keep⟩).2.1.state = .Connecting c) := by
  refine ⟨?_, ?_, ?_⟩
  · intro a h
    simp [IpAddrs.try_parse, h]
  · intro a6 h4 h6
    simp [IpAddrs.try_parse, h4, h6]
  · intro env keep loc hsome
    obtain ⟨addrs, haddrs⟩ := Option.isSome_iff_exists.mp hsome
    constructor
    · simp [HttpConnecting.poll, haddrs]
    · obtain ⟨c2, hc2⟩ := pollConnecting_state env keep ⟨loc, addrs, none⟩
      refine ⟨c2, ?_⟩
      simp [HttpConnecting.poll, haddrs, hc2]

theorem literal_fast_path_witness :
    IpAddrs.try_parse "127.0.0.1" 8080 = some [SockAddr.V4 ⟨127, 0, 0, 1⟩ 8080] ∧
    IpAddrs.try_parse "::1" 8080 = some [SockAddr.V6 ⟨[0, 0, 0, 0, 0, 0, 0, 1]⟩ 8080 0 0] ∧
    (HttpConnecting.poll envAllOk ⟨.Lazy "127.0.0.1" 8080 none, none⟩).2.2.spawned = [] :=
  ⟨(literal_fast_path "127.0.0.1" 8080).1 ⟨127, 0, 0, 1⟩ (by decide),
   (literal_fast_path "::1" 8080).2.1 ⟨[0, 0, 0, 0, 0, 0, 0, 1]⟩ (by decide) (by decide),
   ((literal_fast_path "127.0.0.1" 8080).2.2 envAllOk none none (by decide)).1⟩
